import Mathlib

/-!
Verification of the request/cache/retry pipeline, response-envelope builders
and identifier validators of the elevenlabs-mcp-server repository, as a
shallow embedding in Lean.  Python dictionaries are modelled as insertion
ordered association lists, Python exceptions as an explicit error type, and
the network as an oracle mapping the attempt index to the outcome of the
corresponding physical HTTP call.
-/

namespace ElevenMCP

/-! ## Python value model

Mutual inductives are used so that every function on values is structurally
recursive (and hence kernel reducible).  `EntryList` is an insertion ordered
Python dict, `ValueList` a Python list. -/

mutual

inductive Value where
  | null : Value
  | bool : Bool → Value
  | int : Int → Value
  | str : String → Value
  | list : ValueList → Value
  | dict : EntryList → Value

inductive ValueList where
  | nil : ValueList
  | cons : Value → ValueList → ValueList

inductive EntryList where
  | nil : EntryList
  | cons : String → Value → EntryList → EntryList

end

def EntryList.isNil : EntryList → Bool
  | .nil => true
  | .cons _ _ _ => false

def ValueList.isNil : ValueList → Bool
  | .nil => true
  | .cons _ _ => false

/-- Python truthiness of a value (`bool(x)`): `None`, `False`, `0`, empty
string, empty list and empty dict are falsy. -/
def truthy : Value → Bool
  | .null => false
  | .bool b => b
  | .int n => !(n == 0)
  | .str s => !(s == "")
  | .list xs => !xs.isNil
  | .dict xs => !xs.isNil

/-- Lookup in a Python dict modelled as an ordered association list
(`d[k]` / `k in d`). -/
def lookupKey (k : String) : List (String × Value) → Option Value
  | [] => none
  | (k2, v) :: rest => if k2 = k then some v else lookupKey k rest

/-- Python dict assignment `d[k] = v`: overwrite in place if the key exists
(keeping its position), otherwise append at the end. -/
def dictSet (d : List (String × Value)) (k : String) (v : Value) :
    List (String × Value) :=
  match d with
  | [] => [(k, v)]
  | (k2, w) :: rest =>
      if k2 = k then (k2, v) :: rest else (k2, w) :: dictSet rest k v

/-! ## Model of `json.dumps` (CPython defaults: `ensure_ascii=True`,
separators `", "` and `": "`, no `sort_keys`; dict entries are emitted in
insertion order). -/

def hexNibble (n : Nat) : Char :=
  if n < 10 then Char.ofNat (48 + n) else Char.ofNat (87 + (n - 10))

def hex4 (n : Nat) : String :=
  String.mk [hexNibble (n / 4096 % 16), hexNibble (n / 256 % 16),
             hexNibble (n / 16 % 16), hexNibble (n % 16)]

/-- Escape of one character inside a JSON string literal, following the
CPython `json` encoder with `ensure_ascii=True` (code points above 0xFFFF
become a surrogate pair). -/
def pyJsonEscapeChar (c : Char) : String :=
  if c = '"' then "\\\""
  else if c = '\\' then "\\\\"
  else if c = '\n' then "\\n"
  else if c = '\r' then "\\r"
  else if c = '\t' then "\\t"
  else if c = '\x08' then "\\b"
  else if c = '\x0c' then "\\f"
  else if c.toNat < 32 ∨ 126 < c.toNat then
    if c.toNat < 65536 then "\\u" ++ hex4 c.toNat
    else
      let n := c.toNat - 65536
      "\\u" ++ hex4 (55296 + n / 1024) ++ "\\u" ++ hex4 (56320 + n % 1024)
  else String.mk [c]

def pyJsonStr (s : String) : String :=
  "\"" ++ String.join (s.toList.map pyJsonEscapeChar) ++ "\""

mutual

def pyJsonDumps : Value → String
  | .null => "null"
  | .bool b => if b then "true" else "false"
  | .int n => toString n
  | .str s => pyJsonStr s
  | .list xs => "[" ++ dumpsArr xs ++ "]"
  | .dict xs => "\x7b" ++ dumpsObj xs ++ "\x7d"

def dumpsArr : ValueList → String
  | .nil => ""
  | .cons v .nil => pyJsonDumps v
  | .cons v (.cons w rest) => pyJsonDumps v ++ ", " ++ dumpsArr (.cons w rest)

def dumpsObj : EntryList → String
  | .nil => ""
  | .cons k v .nil => pyJsonStr k ++ ": " ++ pyJsonDumps v
  | .cons k v (.cons k2 w rest) =>
      pyJsonStr k ++ ": " ++ pyJsonDumps v ++ ", " ++ dumpsObj (.cons k2 w rest)

end

/-! ## Exceptions and attempt outcomes

`PyErr` models the exception classes that reach the retry wrappers:
`httpx.HTTPStatusError` (raised by `response.raise_for_status()` on a non-2xx
status), `httpx.TimeoutException`, `httpx.NetworkError`, and anything else.
An `Outcome` is what one physical network attempt does. -/

inductive PyErr where
  | httpStatus : Nat → String → PyErr
  | timeout : String → PyErr
  | network : String → PyErr
  | other : String → PyErr
deriving DecidableEq

inductive Outcome (α : Type) where
  | ok : α → Outcome α
  | err : PyErr → Outcome α

/-- Whether an attempt outcome is an exception. -/
def Outcome.isErr {α : Type} : Outcome α → Bool
  | .ok _ => false
  | .err _ => true

/-- Whether an attempt outcome is a transient (timeout or network-level)
exception — the classes the filtered retry wrapper treats as retryable. -/
def Outcome.transientErr {α : Type} : Outcome α → Bool
  | .ok _ => false
  | .err (.timeout _) => true
  | .err (.network _) => true
  | .err _ => false

/-- Observable trace of one run through a retry wrapper: the final result
(`Except.error none` models the degenerate `max_retries = 0` path, where the
Python code raises or returns `None`), the number of calls made to the
wrapped function, and the list of back-off sleeps performed, in order. -/
structure RunTrace (α : Type) where
  result : Except (Option PyErr) α
  attempts : Nat
  sleeps : List ℚ

/-- Python `min(a, b)` on two numbers. -/
def pymin (a b : ℚ) : ℚ := if a ≤ b then a else b

namespace AgentsShared

/-- Loop body of `retry_with_backoff` from
`elevenlabs-agents/src/shared/utils.py` (lines 135-168).  The Python loop is
`for attempt in range(max_retries)`; each iteration calls the wrapped
function once, catches every `Exception`, sleeps `min(delay, max_delay)`
unless this was the last iteration, and multiplies `delay` by
`exponential_base`; after the loop the last exception is re-raised.
`attempt` is the current index, `r` the number of iterations left. -/
def retryAux {α : Type} (f : Nat → Outcome α) (base maxDelay : ℚ) :
    Nat → Nat → ℚ → Option PyErr → RunTrace α
  | _, 0, _, last => ⟨.error last, 0, []⟩
  | attempt, r + 1, delay, _ =>
      match f attempt with
      | .ok v => ⟨.ok v, 1, []⟩
      | .err e =>
          match r with
          | 0 => ⟨.error (some e), 1, []⟩
          | r2 + 1 =>
              let t := retryAux f base maxDelay (attempt + 1) (r2 + 1)
                (delay * base) (some e)
              ⟨t.result, t.attempts + 1, pymin delay maxDelay :: t.sleeps⟩

/-- `retry_with_backoff(max_retries, initial_delay, max_delay,
exponential_base)` from the agents shared utils, applied to a wrapped
function `f` (given as the outcome of each attempt). -/
def retry_with_backoff {α : Type} (max_retries : Nat)
    (initial_delay max_delay exponential_base : ℚ)
    (f : Nat → Outcome α) : RunTrace α :=
  retryAux f exponential_base max_delay 0 max_retries initial_delay none

end AgentsShared

namespace ConvUtils

/-- The `except (httpx.TimeoutException, httpx.NetworkError)` clause of the
retry wrapper in `elevenlabs-conversations/src/utils.py` (the same code is
copied verbatim into elevenlabs-testing and elevenlabs-integrations): only
these two exception classes are retried. -/
def retryable : PyErr → Bool
  | .timeout _ => true
  | .network _ => true
  | _ => false

/-- Loop body of `retry_with_backoff(max_retries)` from
`elevenlabs-conversations/src/utils.py` (lines 52-77).  Timeout and network
errors are retried with a `2 ** attempt` second sleep (no cap) unless this
was the last iteration; any other exception is re-raised immediately; after
the loop the last retryable exception, if any, is re-raised. -/
def retryAux {α : Type} (f : Nat → Outcome α) :
    Nat → Nat → Option PyErr → RunTrace α
  | _, 0, last => ⟨.error last, 0, []⟩
  | attempt, r + 1, _ =>
      match f attempt with
      | .ok v => ⟨.ok v, 1, []⟩
      | .err e =>
          if retryable e then
            match r with
            | 0 => ⟨.error (some e), 1, []⟩
            | r2 + 1 =>
                let t := retryAux f (attempt + 1) (r2 + 1) (some e)
                ⟨t.result, t.attempts + 1, ((2 : ℚ) ^ attempt) :: t.sleeps⟩
          else ⟨.error (some e), 1, []⟩

/-- `retry_with_backoff(max_retries)` from the conversations utils, applied
to a wrapped function `f`. -/
def retry_with_backoff {α : Type} (max_retries : Nat)
    (f : Nat → Outcome α) : RunTrace α :=
  retryAux f 0 max_retries none

end ConvUtils

/-! ## Response envelope builders -/

namespace AgentsShared

/-- `format_success(message, data=None)` from the agents shared utils: the
`data` key is added only when `data` is truthy (`if data:`).  The identical
function body also appears in `elevenlabs-voices/src/utils.py`. -/
def format_success (message : String) (data : Option Value) :
    List (String × Value) :=
  let response := [("success", Value.bool true), ("message", Value.str message)]
  if (match data with | none => false | some d => truthy d) then
    response ++ [("data", (data.getD Value.null))]
  else response

/-- `format_error(error, details=None, suggestion=None)` from the agents
shared utils: `details` and `suggestion` keys are added only when truthy. -/
def format_error (error : String) (details : Option Value)
    (suggestion : Option String) : List (String × Value) :=
  let response := [("success", Value.bool false), ("error", Value.str error)]
  let response :=
    if (match details with | none => false | some d => truthy d) then
      response ++ [("details", (details.getD Value.null))]
    else response
  if (match suggestion with | none => false | some s => !(s == "")) then
    response ++ [("suggestion", Value.str (suggestion.getD ""))]
  else response

end AgentsShared

namespace Voices

/-- `format_success(message, data=None)` from `elevenlabs-voices/src/utils.py`
(same body as the agents shared version). -/
def format_success (message : String) (data : Option Value) :
    List (String × Value) :=
  let response := [("success", Value.bool true), ("message", Value.str message)]
  if (match data with | none => false | some d => truthy d) then
    response ++ [("data", (data.getD Value.null))]
  else response

end Voices

namespace ConvUtils

/-- `format_success(message, data=None)` from the conversations utils (also
copied into elevenlabs-integrations): here the check is `if data is not
None`, so any non-`None` value, truthy or not, is attached. -/
def format_success (message : String) (data : Option Value) :
    List (String × Value) :=
  let response := [("success", Value.bool true), ("message", Value.str message)]
  match data with
  | some d => response ++ [("data", d)]
  | none => response

/-- `format_error(error, suggestion=None)` from the conversations utils (also
copied into elevenlabs-integrations). -/
def format_error (error : String) (suggestion : Option String) :
    List (String × Value) :=
  let response := [("success", Value.bool false), ("error", Value.str error)]
  if (match suggestion with | none => false | some s => !(s == "")) then
    response ++ [("suggestion", Value.str (suggestion.getD ""))]
  else response

end ConvUtils

/-! ## The request pipeline (`ElevenLabsClient._request`) -/

namespace AgentsClient

/-- Cache key construction from
`elevenlabs-agents/src/shared/client.py` line 64 (the identical line appears
in every other package client):
`cache_key = f"{method}:{endpoint}:{json.dumps(params or {})}"`.
Note that `json.dumps` is called without `sort_keys`, so the serialization
follows the insertion order of the params dict. -/
def cacheKey (method endpoint : String) (params : Option EntryList) : String :=
  method ++ ":" ++ endpoint ++ ":" ++
    pyJsonDumps (Value.dict (params.getD EntryList.nil))

/-- Observable outcome of one `_request` call: the returned value or raised
exception, the cache afterwards, and how many physical network calls were
made during the call. -/
structure RequestOutcome where
  result : Except (Option PyErr) Value
  cache : List (String × Value)
  networkCalls : Nat

/-- Model of `ElevenLabsClient._request` (agents client, lines 52-100).
`net i` is the outcome of the i-th physical network attempt of this call
(`_do_request`: perform the HTTP call, `raise_for_status`, parse the body).
On a cache hit (`use_cache`, method `GET`, key present) the stored value is
returned at once; otherwise the call goes through
`retry_with_backoff(max_retries=Config.MAX_RETRIES)` with its default
delays (initial 1.0 s, max 60.0 s, base 2.0), and a successful cacheable GET
result is stored under the key.  The scheduled TTL expiry task
(`_expire_cache`: sleep `CACHE_TTL`, then pop the key) is modelled by
removal of the key from the cache; a key that is present is one whose TTL
has not yet expired.  The surrounding `try/except` blocks only log and
re-raise, so errors propagate unchanged. -/
def request (net : Nat → Outcome Value) (maxRetries : Nat)
    (method endpoint : String) (params : Option EntryList) (use_cache : Bool)
    (cache : List (String × Value)) : RequestOutcome :=
  let key := cacheKey method endpoint params
  if use_cache && (method == "GET") && (lookupKey key cache).isSome then
    ⟨.ok ((lookupKey key cache).getD Value.null), cache, 0⟩
  else
    let t := AgentsShared.retry_with_backoff maxRetries 1 60 2 net
    match t.result with
    | .ok v =>
        if use_cache && (method == "GET") then
          ⟨.ok v, dictSet cache key v, t.attempts⟩
        else ⟨.ok v, cache, t.attempts⟩
    | .error e => ⟨.error e, cache, t.attempts⟩

end AgentsClient

/-! ## Identifier validators -/

/-- The character class `[a-zA-Z0-9]` of the validation regexes. -/
def isAlnumA (c : Char) : Bool :=
  ('a' ≤ c && c ≤ 'z') || ('A' ≤ c && c ≤ 'Z') || ('0' ≤ c && c ≤ '9')

def isHexDigitA (c : Char) : Bool :=
  ('0' ≤ c && c ≤ '9') || ('a' ≤ c && c ≤ 'f') || ('A' ≤ c && c ≤ 'F')

/-- Whether the first list is a literal leading segment of the second. -/
def startsWithChars : List Char → List Char → Bool
  | [], _ => true
  | _ :: _, [] => false
  | p :: ps, c :: cs => (p == c) && startsWithChars ps cs

/-- Python `str.replace(pat, repl)`: replace every non-overlapping
occurrence of `pat`, scanning left to right. -/
def listReplace (pat repl : List Char) (l : List Char) : List Char :=
  match l with
  | [] => []
  | c :: rest =>
      if startsWithChars pat (c :: rest) && !pat.isEmpty then
        repl ++ listReplace pat repl (rest.drop (pat.length - 1))
      else c :: listReplace pat repl rest
termination_by l.length
decreasing_by
  · simp only [List.length_drop, List.length_cons]; omega
  · simp

/-- Python `str.strip(chars)`: remove the characters satisfying `p` from
both ends. -/
def pyStrip (p : Char → Bool) (l : List Char) : List Char :=
  ((l.dropWhile p).reverse.dropWhile p).reverse

/-- Tail of a hexadecimal digit run in which single underscores may
separate digits. -/
def hexTail : List Char → Bool
  | [] => true
  | c :: rest =>
      if c = '_' then
        match rest with
        | [] => false
        | d :: r2 => isHexDigitA d && hexTail r2
      else isHexDigitA c && hexTail rest

def hexBodyOk : List Char → Bool
  | [] => false
  | c :: rest => isHexDigitA c && hexTail rest

/-- Hexadecimal literal body: an optional `0x`/`0X` prefix (an underscore
may follow it) and then underscore-separated hexadecimal digits. -/
def hexLit : List Char → Bool
  | [] => false
  | [c] => isHexDigitA c
  | c :: d :: rest =>
      if c = '0' && (d = 'x' || d = 'X') then
        match rest with
        | [] => false
        | e :: r2 => if e = '_' then hexBodyOk r2 else hexBodyOk (e :: r2)
      else hexBodyOk (c :: d :: rest)

def isPyWs (c : Char) : Bool :=
  c = ' ' || c = '\t' || c = '\n' || c = '\x0b' || c = '\x0c' || c = '\r'

/-- Whether CPython `int(s, 16)` succeeds on `s` and the resulting value
passes the `0 <= int < 2**128` range check of `uuid.UUID` (automatic for at
most 32 digits): optional surrounding whitespace, an optional sign (a
negative literal is only accepted when its digits are all zero), an optional
`0x`/`0X` prefix, and hexadecimal digits with single underscores between
digits. -/
def pyIntHexOk (l0 : List Char) : Bool :=
  match pyStrip isPyWs l0 with
  | [] => false
  | c :: rest =>
      if c = '+' then hexLit rest
      else if c = '-' then
        hexLit rest && rest.all (fun x => x = '0' || x = '_' || x = 'x' || x = 'X')
      else hexLit (c :: rest)

def bracePred (c : Char) : Bool := c = '\x7b' || c = '\x7d'

/-- Whether `uuid.UUID(value)` succeeds, following the CPython constructor:
drop every occurrence of `urn:` and `uuid:`, strip curly braces from both
ends, drop hyphens, then require exactly 32 characters forming an in-range
hexadecimal integer literal. -/
def validateUuidChars (l : List Char) : Bool :=
  let h := listReplace "urn:".toList [] l
  let h := listReplace "uuid:".toList [] h
  let h := pyStrip bracePred h
  let h := listReplace ['-'] [] h
  (h.length == 32) && pyIntHexOk h

namespace AgentsShared

/-- `validate_uuid(value)` from the agents shared utils (lines 39-45). -/
def validate_uuid (value : String) : Bool := validateUuidChars value.toList

def alnumExact (n : Nat) (l : List Char) : Bool :=
  (l.length == n) && l.all isAlnumA

/-- Regex `^PRE[a-zA-Z0-9]{n}$` without the `$`-newline tolerance (added by
`reMatchDollar`). -/
def prefixedAlnum (pre : List Char) (n : Nat) (l : List Char) : Bool :=
  startsWithChars pre l && alnumExact n (l.drop pre.length)

def alnumRange (lo hi : Nat) (l : List Char) : Bool :=
  (decide (lo ≤ l.length) && decide (l.length ≤ hi)) && l.all isAlnumA

/-- Model of `re.match(p, s)` for an anchored pattern `^...$`: in Python
regexes the `$` anchor also matches just before a single trailing
newline. -/
def reMatchDollar (core : List Char → Bool) (l : List Char) : Bool :=
  core l || ((l.getLast? == some '\n') && core l.dropLast)

/-- The `patterns` dict of the agents `validate_elevenlabs_id`, in insertion
order. -/
def agentsPatternList : List (String × (List Char → Bool)) :=
  [("agent", prefixedAlnum "agent_".toList 28),
   ("conversation", prefixedAlnum "conv_".toList 28),
   ("command", prefixedAlnum "command_".toList 26),
   ("document", alnumRange 16 32),
   ("phone", prefixedAlnum "phone_".toList 24),
   ("webhook", prefixedAlnum "webhook_".toList 24)]

def lookupPat (k : String) :
    List (String × (List Char → Bool)) → Option (List Char → Bool)
  | [] => none
  | (k2, p) :: rest => if k2 = k then some p else lookupPat k rest

/-- The loop over `patterns.values()` followed by the generic
`^[a-zA-Z0-9]{8,40}$` fallback. -/
def checkAllA (l : List Char) : Bool :=
  agentsPatternList.any (fun kv => reMatchDollar kv.2 l) ||
    reMatchDollar (alnumRange 8 40) l

/-- `validate_elevenlabs_id(value, id_type=None)` from the agents shared
utils (lines 49-99).  `value = none` models a Python `None` argument,
rejected by the `not value or not isinstance(value, str)` guard.  A UUID is
accepted first, regardless of `id_type`.  An `id_type` that is falsy or not
a key of the patterns dict falls through to checking every pattern and then
the generic fallback. -/
def validate_elevenlabs_id (value : Option String) (id_type : Option String) :
    Bool :=
  match value with
  | none => false
  | some v =>
      let l := v.toList
      if l.isEmpty then false
      else if validateUuidChars l then true
      else
        match (match id_type with
               | some t => if t == "" then none else lookupPat t agentsPatternList
               | none => none) with
        | some p => reMatchDollar p l
        | none => checkAllA l

end AgentsShared

namespace ConvUtils

/-- The `patterns` dict of the conversations `validate_elevenlabs_id`: every
pattern is `^PRE[a-zA-Z0-9]+$`, an open-ended suffix with no length bound. -/
def convPatternList : List (String × List Char) :=
  [("agent", "agent_".toList),
   ("conversation", "conv_".toList),
   ("document", "doc_".toList),
   ("test", "test_".toList),
   ("tool", "tool_".toList),
   ("server", "server_".toList),
   ("secret", "secret_".toList),
   ("widget", "widget_".toList),
   ("invocation", "inv_".toList)]

/-- Regex `^PRE[a-zA-Z0-9]+$` without the `$`-newline tolerance. -/
def prefixedAlnumSome (pre : List Char) (l : List Char) : Bool :=
  startsWithChars pre l &&
    (!(l.drop pre.length).isEmpty && (l.drop pre.length).all isAlnumA)

def lookupPre (k : String) : List (String × List Char) → Option (List Char)
  | [] => none
  | (k2, p) :: rest => if k2 = k then some p else lookupPre k rest

/-- `validate_elevenlabs_id(id_value, id_type)` from
`elevenlabs-conversations/src/utils.py` (lines 249-267): look the type up in
the patterns dict (unknown type: `False`) and match the open-ended
pattern.  There is no UUID acceptance and no length bound on the suffix. -/
def validate_elevenlabs_id (id_value : String) (id_type : String) : Bool :=
  match lookupPre id_type convPatternList with
  | none => false
  | some pre => AgentsShared.reMatchDollar (prefixedAlnumSome pre) id_value.toList

end ConvUtils

/-! ## Lemmas about the retry wrappers -/

theorem pymin_le (a b : ℚ) : pymin a b ≤ b := by
  unfold pymin
  split
  · assumption
  · exact le_refl b

theorem transientErr_iff {α : Type} (o : Outcome α) :
    o.transientErr = true ↔ ∃ e, o = .err e ∧ ConvUtils.retryable e = true := by
  cases o with
  | ok v => simp [Outcome.transientErr]
  | err e => cases e <;> simp [Outcome.transientErr, ConvUtils.retryable]

theorem agentsRetryAux_succ {α : Type} (f : Nat → Outcome α)
    (base maxDelay : ℚ) (attempt r : Nat) (delay : ℚ) (last : Option PyErr) :
    AgentsShared.retryAux f base maxDelay attempt (r + 1) delay last
      = match f attempt with
        | .ok v => ⟨.ok v, 1, []⟩
        | .err e =>
            match r with
            | 0 => ⟨.error (some e), 1, []⟩
            | r2 + 1 =>
                let t := AgentsShared.retryAux f base maxDelay (attempt + 1)
                  (r2 + 1) (delay * base) (some e)
                ⟨t.result, t.attempts + 1, pymin delay maxDelay :: t.sleeps⟩ := by
  rw [AgentsShared.retryAux.eq_def]

theorem convRetryAux_succ {α : Type} (f : Nat → Outcome α)
    (attempt r : Nat) (last : Option PyErr) :
    ConvUtils.retryAux f attempt (r + 1) last
      = match f attempt with
        | .ok v => ⟨.ok v, 1, []⟩
        | .err e =>
            if ConvUtils.retryable e then
              match r with
              | 0 => ⟨.error (some e), 1, []⟩
              | r2 + 1 =>
                  let t := ConvUtils.retryAux f (attempt + 1) (r2 + 1) (some e)
                  ⟨t.result, t.attempts + 1, ((2 : ℚ) ^ attempt) :: t.sleeps⟩
            else ⟨.error (some e), 1, []⟩ := by
  rw [ConvUtils.retryAux.eq_def]

theorem agentsRetryAux_zero {α : Type} {f : Nat → Outcome α}
    {base maxDelay : ℚ} {attempt : Nat} {delay : ℚ} {last : Option PyErr} :
    AgentsShared.retryAux f base maxDelay attempt 0 delay last
      = ⟨.error last, 0, []⟩ :=
  rfl

theorem agentsRetryAux_ok {α : Type} {f : Nat → Outcome α}
    {base maxDelay : ℚ} {attempt r : Nat} {delay : ℚ} {last : Option PyErr}
    {v : α} (hok : f attempt = .ok v) :
    AgentsShared.retryAux f base maxDelay attempt (r + 1) delay last
      = ⟨.ok v, 1, []⟩ := by
  rw [agentsRetryAux_succ, hok]

theorem agentsRetryAux_err_last {α : Type} {f : Nat → Outcome α}
    {base maxDelay : ℚ} {attempt : Nat} {delay : ℚ} {last : Option PyErr}
    {e : PyErr} (he : f attempt = .err e) :
    AgentsShared.retryAux f base maxDelay attempt 1 delay last
      = ⟨.error (some e), 1, []⟩ := by
  rw [agentsRetryAux_succ, he]

theorem agentsRetryAux_err_more {α : Type} {f : Nat → Outcome α}
    {base maxDelay : ℚ} {attempt r : Nat} {delay : ℚ} {last : Option PyErr}
    {e : PyErr} (he : f attempt = .err e) :
    AgentsShared.retryAux f base maxDelay attempt (r + 2) delay last
      = ⟨(AgentsShared.retryAux f base maxDelay (attempt + 1) (r + 1)
            (delay * base) (some e)).result,
         (AgentsShared.retryAux f base maxDelay (attempt + 1) (r + 1)
            (delay * base) (some e)).attempts + 1,
         pymin delay maxDelay
           :: (AgentsShared.retryAux f base maxDelay (attempt + 1) (r + 1)
            (delay * base) (some e)).sleeps⟩ := by
  rw [agentsRetryAux_succ, he]

theorem convRetryAux_zero {α : Type} {f : Nat → Outcome α}
    {attempt : Nat} {last : Option PyErr} :
    ConvUtils.retryAux f attempt 0 last = ⟨.error last, 0, []⟩ :=
  rfl

theorem convRetryAux_ok {α : Type} {f : Nat → Outcome α}
    {attempt r : Nat} {last : Option PyErr} {v : α} (hok : f attempt = .ok v) :
    ConvUtils.retryAux f attempt (r + 1) last = ⟨.ok v, 1, []⟩ := by
  rw [convRetryAux_succ, hok]

theorem convRetryAux_err_stop {α : Type} {f : Nat → Outcome α}
    {attempt r : Nat} {last : Option PyErr} {e : PyErr}
    (he : f attempt = .err e) (hr : ConvUtils.retryable e = false) :
    ConvUtils.retryAux f attempt (r + 1) last = ⟨.error (some e), 1, []⟩ := by
  rw [convRetryAux_succ, he]
  simp [hr]

theorem convRetryAux_err_retry_last {α : Type} {f : Nat → Outcome α}
    {attempt : Nat} {last : Option PyErr} {e : PyErr}
    (he : f attempt = .err e) (hr : ConvUtils.retryable e = true) :
    ConvUtils.retryAux f attempt 1 last = ⟨.error (some e), 1, []⟩ := by
  rw [convRetryAux_succ, he]
  simp [hr]

theorem convRetryAux_err_retry_more {α : Type} {f : Nat → Outcome α}
    {attempt r : Nat} {last : Option PyErr} {e : PyErr}
    (he : f attempt = .err e) (hr : ConvUtils.retryable e = true) :
    ConvUtils.retryAux f attempt (r + 2) last
      = ⟨(ConvUtils.retryAux f (attempt + 1) (r + 1) (some e)).result,
         (ConvUtils.retryAux f (attempt + 1) (r + 1) (some e)).attempts + 1,
         ((2 : ℚ) ^ attempt)
           :: (ConvUtils.retryAux f (attempt + 1) (r + 1) (some e)).sleeps⟩ := by
  rw [convRetryAux_succ, he]
  simp [hr]

theorem agentsRetryAux_all_fail {α : Type} (f : Nat → Outcome α)
    (errs : Nat → PyErr) (base maxDelay : ℚ) (hf : ∀ i, f i = .err (errs i)) :
    ∀ r attempt delay last, 1 ≤ r →
      (AgentsShared.retryAux f base maxDelay attempt r delay last).result
          = .error (some (errs (attempt + r - 1)))
        ∧ (AgentsShared.retryAux f base maxDelay attempt r delay last).attempts
          = r := by
  intro r
  induction r with
  | zero => intro attempt delay last h; exact absurd h (by omega)
  | succ r ih =>
      intro attempt delay last _
      cases r with
      | zero => rw [agentsRetryAux_err_last (hf attempt)]; simp
      | succ r2 =>
          have h2 := ih (attempt + 1) (delay * base) (some (errs attempt))
            (by omega)
          have hidx : attempt + 1 + (r2 + 1) - 1 = attempt + (r2 + 1 + 1) - 1 := by
            omega
          rw [hidx] at h2
          rw [agentsRetryAux_err_more (hf attempt)]
          exact ⟨h2.1, by rw [show (r2 + 1 + 1) = (r2 + 1) + 1 from rfl, h2.2]⟩

theorem agentsRetryAux_succeed_at {α : Type} (f : Nat → Outcome α)
    (base maxDelay : ℚ) (v : α) :
    ∀ N r attempt delay last, 1 ≤ N → N ≤ r →
      (∀ k, k < N - 1 → (f (attempt + k)).isErr = true) →
      f (attempt + (N - 1)) = .ok v →
      (AgentsShared.retryAux f base maxDelay attempt r delay last).result = .ok v
        ∧ (AgentsShared.retryAux f base maxDelay attempt r delay last).attempts
          = N := by
  intro N
  induction N with
  | zero => intro r attempt delay last h; exact absurd h (by omega)
  | succ N ih =>
      intro r attempt delay last h1 hNr hfail hok
      cases N with
      | zero =>
          obtain ⟨r2, rfl⟩ : ∃ r2, r = r2 + 1 := ⟨r - 1, by omega⟩
          rw [show 0 + 1 - 1 = 0 from rfl, Nat.add_zero] at hok
          rw [agentsRetryAux_ok hok]
          exact ⟨rfl, rfl⟩
      | succ N2 =>
          obtain ⟨r3, rfl⟩ : ∃ r3, r = r3 + 2 := ⟨r - 2, by omega⟩
          have hf0 : (f attempt).isErr = true := by
            have h := hfail 0 (by omega)
            rwa [Nat.add_zero] at h
          obtain ⟨e, he⟩ : ∃ e, f attempt = .err e := by
            cases hfa : f attempt with
            | ok w => rw [hfa] at hf0; exact absurd hf0 (by simp [Outcome.isErr])
            | err e => exact ⟨e, rfl⟩
          have ihh := ih (r3 + 1) (attempt + 1) (delay * base) (some e)
            (by omega) (by omega)
            (fun k hk => by
              have h := hfail (k + 1) (by omega)
              rwa [show attempt + (k + 1) = attempt + 1 + k by omega] at h)
            (by
              rw [show attempt + 1 + (N2 + 1 - 1) = attempt + (N2 + 1 + 1 - 1) by
                omega]
              exact hok)
          rw [agentsRetryAux_err_more he]
          exact ⟨ihh.1, by rw [show (N2 + 1 + 1) = (N2 + 1) + 1 from rfl, ihh.2]⟩

theorem agentsRetryAux_sleeps {α : Type} (f : Nat → Outcome α)
    (base maxDelay : ℚ) :
    ∀ r attempt delay last i,
      i < (AgentsShared.retryAux f base maxDelay attempt r delay last).sleeps.length →
      (AgentsShared.retryAux f base maxDelay attempt r delay last).sleeps.getD i 0
        = pymin (delay * base ^ i) maxDelay := by
  intro r
  induction r with
  | zero => intro attempt delay last i hi; rw [agentsRetryAux_zero] at hi; simp at hi
  | succ r ih =>
      intro attempt delay last i hi
      cases hfa : f attempt with
      | ok w => rw [agentsRetryAux_ok hfa] at hi; simp at hi
      | err e =>
          cases r with
          | zero => rw [agentsRetryAux_err_last hfa] at hi; simp at hi
          | succ r2 =>
              rw [agentsRetryAux_err_more hfa] at hi ⊢
              simp only [List.length_cons] at hi
              cases i with
              | zero => simp [pow_zero, mul_one]
              | succ j =>
                  have hj := ih (attempt + 1) (delay * base) (some e) j
                    (by omega)
                  simp only [List.getD_cons_succ]
                  rw [hj]
                  have harith : delay * base * base ^ j = delay * base ^ (j + 1) := by
                    ring
                  rw [harith]

theorem convRetryAux_all_fail {α : Type} (f : Nat → Outcome α)
    (errs : Nat → PyErr) (hf : ∀ i, f i = .err (errs i))
    (hr : ∀ i, ConvUtils.retryable (errs i) = true) :
    ∀ r attempt last, 1 ≤ r →
      (ConvUtils.retryAux f attempt r last).result
          = .error (some (errs (attempt + r - 1)))
        ∧ (ConvUtils.retryAux f attempt r last).attempts = r := by
  intro r
  induction r with
  | zero => intro attempt last h; exact absurd h (by omega)
  | succ r ih =>
      intro attempt last _
      cases r with
      | zero =>
          rw [convRetryAux_err_retry_last (hf attempt) (hr attempt)]
          simp
      | succ r2 =>
          have h2 := ih (attempt + 1) (some (errs attempt)) (by omega)
          have hidx : attempt + 1 + (r2 + 1) - 1 = attempt + (r2 + 1 + 1) - 1 := by
            omega
          rw [hidx] at h2
          rw [convRetryAux_err_retry_more (hf attempt) (hr attempt)]
          exact ⟨h2.1, by rw [show (r2 + 1 + 1) = (r2 + 1) + 1 from rfl, h2.2]⟩

theorem convRetryAux_succeed_at {α : Type} (f : Nat → Outcome α) (v : α) :
    ∀ N r attempt last, 1 ≤ N → N ≤ r →
      (∀ k, k < N - 1 → (f (attempt + k)).transientErr = true) →
      f (attempt + (N - 1)) = .ok v →
      (ConvUtils.retryAux f attempt r last).result = .ok v
        ∧ (ConvUtils.retryAux f attempt r last).attempts = N := by
  intro N
  induction N with
  | zero => intro r attempt last h; exact absurd h (by omega)
  | succ N ih =>
      intro r attempt last h1 hNr hfail hok
      cases N with
      | zero =>
          obtain ⟨r2, rfl⟩ : ∃ r2, r = r2 + 1 := ⟨r - 1, by omega⟩
          rw [show 0 + 1 - 1 = 0 from rfl, Nat.add_zero] at hok
          rw [convRetryAux_ok hok]
          exact ⟨rfl, rfl⟩
      | succ N2 =>
          obtain ⟨r3, rfl⟩ : ∃ r3, r = r3 + 2 := ⟨r - 2, by omega⟩
          have hf0 : (f attempt).transientErr = true := by
            have h := hfail 0 (by omega)
            rwa [Nat.add_zero] at h
          obtain ⟨e, he, hre⟩ := (transientErr_iff (f attempt)).mp hf0
          have ihh := ih (r3 + 1) (attempt + 1) (some e)
            (by omega) (by omega)
            (fun k hk => by
              have h := hfail (k + 1) (by omega)
              rwa [show attempt + (k + 1) = attempt + 1 + k by omega] at h)
            (by
              rw [show attempt + 1 + (N2 + 1 - 1) = attempt + (N2 + 1 + 1 - 1) by
                omega]
              exact hok)
          rw [convRetryAux_err_retry_more he hre]
          exact ⟨ihh.1, by rw [show (N2 + 1 + 1) = (N2 + 1) + 1 from rfl, ihh.2]⟩

/-! ## Claims C2, C3, C4, C6 about the retry wrappers -/

/-- Claim C2, counterexample: the retry wrapper of the agents shared utils
catches every `Exception`, so a non-2xx HTTP status error is retried like a
transient failure.  With `max_retries = 3` and a wrapped function that always
raises `httpx.HTTPStatusError` (status 404), three network attempts are made
(not one) and two back-off sleeps occur, refuting the claim for this
wrapper. -/
theorem agents_retry_retries_http_status :
    (AgentsShared.retry_with_backoff 3 1 60 2
        (fun _ => Outcome.err (PyErr.httpStatus 404 "Not Found") :
          Nat → Outcome Value)).attempts = 3
      ∧ (AgentsShared.retry_with_backoff 3 1 60 2
        (fun _ => Outcome.err (PyErr.httpStatus 404 "Not Found") :
          Nat → Outcome Value)).sleeps.length = 2 := by
  constructor
  · decide
  · decide

/-- Claim C2, amended: in the filtered retry wrapper of
elevenlabs-conversations (copied into elevenlabs-testing and
elevenlabs-integrations), a wrapped call that raises a non-retryable
exception — in particular `httpx.HTTPStatusError` for a non-2xx response —
is attempted exactly once: the exception propagates immediately and no
back-off sleep happens.  (The agents shared wrapper instead retries such
errors, see the counterexample.) -/
theorem conv_retry_no_retry_on_http_status {α : Type} (f : Nat → Outcome α)
    (e : PyErr) (max_retries : Nat) (h1 : 1 ≤ max_retries)
    (h2 : f 0 = .err e) (h3 : ConvUtils.retryable e = false) :
    (ConvUtils.retry_with_backoff max_retries f).result = .error (some e)
      ∧ (ConvUtils.retry_with_backoff max_retries f).attempts = 1
      ∧ (ConvUtils.retry_with_backoff max_retries f).sleeps = [] := by
  obtain ⟨r, rfl⟩ : ∃ r, max_retries = r + 1 := ⟨max_retries - 1, by omega⟩
  cases r with
  | zero => simp [ConvUtils.retry_with_backoff, ConvUtils.retryAux, h2, h3]
  | succ r2 => simp [ConvUtils.retry_with_backoff, ConvUtils.retryAux, h2, h3]

/-- Witness for the amended claim C2 at a concrete input: a function that
always raises HTTP 404 under `max_retries = 3`. -/
theorem conv_retry_no_retry_on_http_status_witness :
    ((fun _ => Outcome.err (PyErr.httpStatus 404 "Not Found") :
        Nat → Outcome Value) 0
      = Outcome.err (PyErr.httpStatus 404 "Not Found"))
    ∧ ConvUtils.retryable (PyErr.httpStatus 404 "Not Found") = false
    ∧ ((ConvUtils.retry_with_backoff 3
          (fun _ => Outcome.err (PyErr.httpStatus 404 "Not Found") :
            Nat → Outcome Value)).result
        = .error (some (PyErr.httpStatus 404 "Not Found"))
      ∧ (ConvUtils.retry_with_backoff 3
          (fun _ => Outcome.err (PyErr.httpStatus 404 "Not Found") :
            Nat → Outcome Value)).attempts = 1
      ∧ (ConvUtils.retry_with_backoff 3
          (fun _ => Outcome.err (PyErr.httpStatus 404 "Not Found") :
            Nat → Outcome Value)).sleeps = []) :=
  ⟨rfl, rfl,
    conv_retry_no_retry_on_http_status _ _ 3 (by omega) rfl rfl⟩

/-- Claim C3: when the wrapped call fails on every attempt (with any
exception for the agents shared wrapper; with retryable timeout/network
exceptions for the filtered conversations wrapper), the number of attempts
equals exactly `max_retries` and the wrapper re-raises the last exception
unmodified — it never returns a partial or fallback value. -/
theorem retry_exhaustion_reraises_last :
    (∀ (α : Type) (f : Nat → Outcome α) (errs : Nat → PyErr)
        (max_retries : Nat) (d0 dmax b : ℚ), 1 ≤ max_retries →
        (∀ i, f i = .err (errs i)) →
        (AgentsShared.retry_with_backoff max_retries d0 dmax b f).result
            = .error (some (errs (max_retries - 1)))
          ∧ (AgentsShared.retry_with_backoff max_retries d0 dmax b f).attempts
            = max_retries)
    ∧ (∀ (α : Type) (f : Nat → Outcome α) (errs : Nat → PyErr)
        (max_retries : Nat), 1 ≤ max_retries →
        (∀ i, f i = .err (errs i)) →
        (∀ i, ConvUtils.retryable (errs i) = true) →
        (ConvUtils.retry_with_backoff max_retries f).result
            = .error (some (errs (max_retries - 1)))
          ∧ (ConvUtils.retry_with_backoff max_retries f).attempts
            = max_retries) := by
  constructor
  · intro α f errs max_retries d0 dmax b hmr hf
    have h := agentsRetryAux_all_fail f errs b dmax hf max_retries 0 d0 none hmr
    rwa [Nat.zero_add] at h
  · intro α f errs max_retries hmr hf hr
    have h := convRetryAux_all_fail f errs hf hr max_retries 0 none hmr
    rwa [Nat.zero_add] at h

/-- Witness for claim C3 at a concrete input: both wrappers exhaust three
attempts on a function that always raises a timeout. -/
theorem retry_exhaustion_reraises_last_witness :
    ((1 : Nat) ≤ 3)
    ∧ (∀ i : Nat, (fun _ => Outcome.err (PyErr.timeout "t") :
        Nat → Outcome Value) i = Outcome.err ((fun _ => PyErr.timeout "t") i))
    ∧ (∀ i : Nat, ConvUtils.retryable ((fun _ => PyErr.timeout "t") i) = true)
    ∧ ((AgentsShared.retry_with_backoff 3 1 60 2
          (fun _ => Outcome.err (PyErr.timeout "t") : Nat → Outcome Value)).result
        = .error (some (PyErr.timeout "t"))
      ∧ (AgentsShared.retry_with_backoff 3 1 60 2
          (fun _ => Outcome.err (PyErr.timeout "t") : Nat → Outcome Value)).attempts
        = 3)
    ∧ ((ConvUtils.retry_with_backoff 3
          (fun _ => Outcome.err (PyErr.timeout "t") : Nat → Outcome Value)).result
        = .error (some (PyErr.timeout "t"))
      ∧ (ConvUtils.retry_with_backoff 3
          (fun _ => Outcome.err (PyErr.timeout "t") : Nat → Outcome Value)).attempts
        = 3) :=
  ⟨by omega, fun _ => rfl, fun _ => rfl,
    retry_exhaustion_reraises_last.1 Value _ _ 3 1 60 2 (by omega) (fun _ => rfl),
    retry_exhaustion_reraises_last.2 Value _ _ 3 (by omega) (fun _ => rfl)
      (fun _ => rfl)⟩

/-- Claim C4: if the wrapped call fails with a transient (timeout or
network) error on its first N-1 attempts and succeeds on attempt N, with
1 ≤ N ≤ max_retries, both retry wrappers return the successful result of
attempt N and make exactly N underlying attempts. -/
theorem retry_succeeds_after_transient_failures :
    (∀ (α : Type) (f : Nat → Outcome α) (v : α) (N max_retries : Nat)
        (d0 dmax b : ℚ), 1 ≤ N → N ≤ max_retries →
        (∀ k, k < N - 1 → (f k).transientErr = true) →
        f (N - 1) = .ok v →
        (AgentsShared.retry_with_backoff max_retries d0 dmax b f).result = .ok v
          ∧ (AgentsShared.retry_with_backoff max_retries d0 dmax b f).attempts
            = N)
    ∧ (∀ (α : Type) (f : Nat → Outcome α) (v : α) (N max_retries : Nat),
        1 ≤ N → N ≤ max_retries →
        (∀ k, k < N - 1 → (f k).transientErr = true) →
        f (N - 1) = .ok v →
        (ConvUtils.retry_with_backoff max_retries f).result = .ok v
          ∧ (ConvUtils.retry_with_backoff max_retries f).attempts = N) := by
  constructor
  · intro α f v N max_retries d0 dmax b hN hNmr hfail hok
    have h := agentsRetryAux_succeed_at f b dmax v N max_retries 0 d0 none hN
      hNmr
      (fun k hk => by
        have h2 := hfail k hk
        have h3 : (f (0 + k)).transientErr = true := by rwa [Nat.zero_add]
        rw [transientErr_iff] at h3
        obtain ⟨e, he, _⟩ := h3
        rw [he]
        rfl)
      (by rwa [Nat.zero_add])
    exact h
  · intro α f v N max_retries hN hNmr hfail hok
    have h := convRetryAux_succeed_at f v N max_retries 0 none hN hNmr
      (fun k hk => by have h2 := hfail k hk; rwa [Nat.zero_add])
      (by rwa [Nat.zero_add])
    exact h

/-- Witness for claim C4 at a concrete input: two timeouts and then a
success, N = 3 with max_retries = 3, for both wrappers. -/
theorem retry_succeeds_after_transient_failures_witness :
    ((1 : Nat) ≤ 3) ∧ ((3 : Nat) ≤ 3)
    ∧ (∀ k, k < 3 - 1 →
        ((fun i => if i < 2 then Outcome.err (PyErr.timeout "t")
            else Outcome.ok (Value.str "done") : Nat → Outcome Value) k).transientErr
          = true)
    ∧ ((fun i => if i < 2 then Outcome.err (PyErr.timeout "t")
          else Outcome.ok (Value.str "done") : Nat → Outcome Value) (3 - 1)
        = Outcome.ok (Value.str "done"))
    ∧ ((AgentsShared.retry_with_backoff 3 1 60 2
          (fun i => if i < 2 then Outcome.err (PyErr.timeout "t")
            else Outcome.ok (Value.str "done"))).result = .ok (Value.str "done")
      ∧ (AgentsShared.retry_with_backoff 3 1 60 2
          (fun i => if i < 2 then Outcome.err (PyErr.timeout "t")
            else Outcome.ok (Value.str "done"))).attempts = 3)
    ∧ ((ConvUtils.retry_with_backoff 3
          (fun i => if i < 2 then Outcome.err (PyErr.timeout "t")
            else Outcome.ok (Value.str "done"))).result = .ok (Value.str "done")
      ∧ (ConvUtils.retry_with_backoff 3
          (fun i => if i < 2 then Outcome.err (PyErr.timeout "t")
            else Outcome.ok (Value.str "done"))).attempts = 3) :=
  ⟨by omega, by omega,
    fun k hk => by
      interval_cases k <;> rfl,
    rfl,
    retry_succeeds_after_transient_failures.1 Value _ _ 3 3 1 60 2 (by omega)
      (by omega) (fun k hk => by interval_cases k <;> rfl) rfl,
    retry_succeeds_after_transient_failures.2 Value _ _ 3 3 (by omega)
      (by omega) (fun k hk => by interval_cases k <;> rfl) rfl⟩

/-- Claim C6: in the agents shared retry wrapper (whose exponential base
defaults to 2), the sleep performed after failed attempt i+1 — index i in
the trace, so the wait before retry attempt i+1, for 0-based i — equals the
initial delay doubled i times, capped at the configured maximum delay:
`min(initial_delay * 2 ^ i, max_delay)`; consequently no single
inter-attempt wait ever exceeds `max_delay`. -/
theorem retry_backoff_doubles_and_caps {α : Type} (f : Nat → Outcome α)
    (max_retries : Nat) (initial_delay max_delay : ℚ) (i : Nat)
    (h : i < (AgentsShared.retry_with_backoff max_retries initial_delay
        max_delay 2 f).sleeps.length) :
    (AgentsShared.retry_with_backoff max_retries initial_delay max_delay 2
        f).sleeps.getD i 0
      = pymin (initial_delay * 2 ^ i) max_delay
    ∧ (AgentsShared.retry_with_backoff max_retries initial_delay max_delay 2
        f).sleeps.getD i 0 ≤ max_delay := by
  have h1 := agentsRetryAux_sleeps f 2 max_delay max_retries 0 initial_delay
    none i h
  have h2 : (AgentsShared.retry_with_backoff max_retries initial_delay
        max_delay 2 f).sleeps.getD i 0
      = pymin (initial_delay * 2 ^ i) max_delay := h1
  exact ⟨h2, by rw [h2]; exact pymin_le _ _⟩

/-- Witness for claim C6 at a concrete input: with initial delay 1, maximum
delay 60 and a function that always fails, the second recorded sleep is
`min(1 * 2 ^ 1, 60)`. -/
theorem retry_backoff_doubles_and_caps_witness :
    (1 < (AgentsShared.retry_with_backoff 3 1 60 2
        (fun _ => Outcome.err (PyErr.timeout "t") :
          Nat → Outcome Value)).sleeps.length)
    ∧ ((AgentsShared.retry_with_backoff 3 1 60 2
          (fun _ => Outcome.err (PyErr.timeout "t") :
            Nat → Outcome Value)).sleeps.getD 1 0 = pymin (1 * 2 ^ 1) 60
      ∧ (AgentsShared.retry_with_backoff 3 1 60 2
          (fun _ => Outcome.err (PyErr.timeout "t") :
            Nat → Outcome Value)).sleeps.getD 1 0 ≤ 60) :=
  ⟨by decide,
    retry_backoff_doubles_and_caps _ 3 1 60 1 (by decide)⟩

/-! ## Lemmas about the cache, and claims C1 and C5 -/

theorem lookupKey_dictSet (d : List (String × Value)) (k : String) (v : Value) :
    lookupKey k (dictSet d k v) = some v := by
  induction d with
  | nil => simp [dictSet, lookupKey]
  | cons p rest ih =>
      obtain ⟨k2, w⟩ := p
      by_cases hk : k2 = k
      · subst hk; simp [dictSet, lookupKey]
      · simp [dictSet, lookupKey, hk, ih]

theorem requestHit (net : Nat → Outcome Value) (maxRetries : Nat)
    (endpoint : String) (params : Option EntryList)
    (cache : List (String × Value)) (v : Value)
    (h : lookupKey (AgentsClient.cacheKey "GET" endpoint params) cache
      = some v) :
    AgentsClient.request net maxRetries "GET" endpoint params true cache
      = ⟨.ok v, cache, 0⟩ := by
  simp [AgentsClient.request, h]

theorem requestMissFirst (net : Nat → Outcome Value) (maxRetries : Nat)
    (endpoint : String) (params : Option EntryList)
    (cache : List (String × Value)) (v : Value) (hmr : 1 ≤ maxRetries)
    (hmiss : lookupKey (AgentsClient.cacheKey "GET" endpoint params) cache
      = none)
    (hok : net 0 = .ok v) :
    AgentsClient.request net maxRetries "GET" endpoint params true cache
      = ⟨.ok v,
          dictSet cache (AgentsClient.cacheKey "GET" endpoint params) v, 1⟩ := by
  obtain ⟨r, rfl⟩ : ∃ r, maxRetries = r + 1 := ⟨maxRetries - 1, by omega⟩
  have ht : AgentsShared.retry_with_backoff (r + 1) 1 60 2 net
      = ⟨.ok v, 1, []⟩ := agentsRetryAux_ok hok
  simp [AgentsClient.request, hmiss, ht]

/-- Claim C1: on a cache hit (cacheable GET whose key is stored and not yet
expired, i.e. still present), `_request` returns the stored value at once
with zero network calls — the retry wrapper is not entered — and issuing the
same cacheable GET twice within the TTL window makes exactly one network
call in total: the first call performs one attempt and stores the value, the
second returns the identical value with zero network calls (whatever the
network would now answer). -/
theorem request_cache_hit_no_network :
    (∀ (net : Nat → Outcome Value) (maxRetries : Nat) (endpoint : String)
        (params : Option EntryList) (cache : List (String × Value)) (v : Value),
        lookupKey (AgentsClient.cacheKey "GET" endpoint params) cache = some v →
        AgentsClient.request net maxRetries "GET" endpoint params true cache
          = ⟨.ok v, cache, 0⟩)
    ∧ (∀ (net net2 : Nat → Outcome Value) (maxRetries : Nat)
        (endpoint : String) (params : Option EntryList)
        (cache : List (String × Value)) (v : Value),
        1 ≤ maxRetries →
        lookupKey (AgentsClient.cacheKey "GET" endpoint params) cache = none →
        net 0 = .ok v →
        (AgentsClient.request net maxRetries "GET" endpoint params true
            cache).result = .ok v
          ∧ (AgentsClient.request net maxRetries "GET" endpoint params true
              cache).networkCalls = 1
          ∧ (AgentsClient.request net2 maxRetries "GET" endpoint params true
              (AgentsClient.request net maxRetries "GET" endpoint params true
                cache).cache).result = .ok v
          ∧ (AgentsClient.request net2 maxRetries "GET" endpoint params true
              (AgentsClient.request net maxRetries "GET" endpoint params true
                cache).cache).networkCalls = 0) := by
  constructor
  · exact requestHit
  · intro net net2 maxRetries endpoint params cache v hmr hmiss hok
    have h1 := requestMissFirst net maxRetries endpoint params cache v hmr
      hmiss hok
    have h2 : lookupKey (AgentsClient.cacheKey "GET" endpoint params)
        (AgentsClient.request net maxRetries "GET" endpoint params true
          cache).cache = some v := by
      rw [h1]
      exact lookupKey_dictSet cache _ v
    have h3 := requestHit net2 maxRetries endpoint params _ v h2
    refine ⟨by rw [h1], by rw [h1], by rw [h3], by rw [h3]⟩

/-- Witness for claim C1 at a concrete input: an empty cache, a network that
answers immediately, and two identical cacheable GET calls. -/
theorem request_cache_hit_no_network_witness :
    ((1 : Nat) ≤ 3)
    ∧ lookupKey (AgentsClient.cacheKey "GET" "/convai/agents" none) [] = none
    ∧ ((fun _ => Outcome.ok (Value.str "agents") : Nat → Outcome Value) 0
        = Outcome.ok (Value.str "agents"))
    ∧ ((AgentsClient.request (fun _ => Outcome.ok (Value.str "agents")) 3
          "GET" "/convai/agents" none true []).result = .ok (Value.str "agents")
      ∧ (AgentsClient.request (fun _ => Outcome.ok (Value.str "agents")) 3
          "GET" "/convai/agents" none true []).networkCalls = 1
      ∧ (AgentsClient.request (fun _ => Outcome.err (PyErr.timeout "down")) 3
          "GET" "/convai/agents" none true
          (AgentsClient.request (fun _ => Outcome.ok (Value.str "agents")) 3
            "GET" "/convai/agents" none true []).cache).result
        = .ok (Value.str "agents")
      ∧ (AgentsClient.request (fun _ => Outcome.err (PyErr.timeout "down")) 3
          "GET" "/convai/agents" none true
          (AgentsClient.request (fun _ => Outcome.ok (Value.str "agents")) 3
            "GET" "/convai/agents" none true []).cache).networkCalls = 0) :=
  ⟨by omega, rfl, rfl,
    request_cache_hit_no_network.2
      (fun _ => Outcome.ok (Value.str "agents"))
      (fun _ => Outcome.err (PyErr.timeout "down"))
      3 "/convai/agents" none [] (Value.str "agents") (by omega) rfl rfl⟩

/-- Claim C5, counterexample: the cache key is built with
`json.dumps(params or \x7b\x7d)` without `sort_keys`, so two query dicts
holding the same key/value pairs in different insertion order produce
different cache keys, refuting the claimed order independence. -/
theorem cache_key_order_sensitive :
    AgentsClient.cacheKey "GET" "/convai/conversations"
        (some (EntryList.cons "a" (Value.int 1)
          (EntryList.cons "b" (Value.int 2) .nil)))
      ≠ AgentsClient.cacheKey "GET" "/convai/conversations"
        (some (EntryList.cons "b" (Value.int 2)
          (EntryList.cons "a" (Value.int 1) .nil))) := by
  decide

/-- Claim C5, amended: the cache key is a deterministic function of method,
path and the insertion-order JSON serialization of the query parameters —
two query dicts with the same serialization share one cache key, but the
same pairs supplied in a different key order yield a different key, so a
request whose cache holds the reordered variant misses the cache and goes
to the network. -/
theorem cache_key_serialization_determinism :
    (∀ (method endpoint : String) (q1 q2 : EntryList),
        pyJsonDumps (Value.dict q1) = pyJsonDumps (Value.dict q2) →
        AgentsClient.cacheKey method endpoint (some q1)
          = AgentsClient.cacheKey method endpoint (some q2))
    ∧ (∀ (net : Nat → Outcome Value) (v : Value), net 0 = .ok v →
        (AgentsClient.request net 3 "GET" "/convai/conversations"
            (some (EntryList.cons "b" (Value.int 2)
              (EntryList.cons "a" (Value.int 1) .nil))) true
            [(AgentsClient.cacheKey "GET" "/convai/conversations"
                (some (EntryList.cons "a" (Value.int 1)
                  (EntryList.cons "b" (Value.int 2) .nil))),
              Value.str "cached")]).networkCalls = 1) := by
  constructor
  · intro method endpoint q1 q2 h
    unfold AgentsClient.cacheKey
    simp [h]
  · intro net v hok
    have hmiss : lookupKey
        (AgentsClient.cacheKey "GET" "/convai/conversations"
          (some (EntryList.cons "b" (Value.int 2)
            (EntryList.cons "a" (Value.int 1) .nil))))
        [(AgentsClient.cacheKey "GET" "/convai/conversations"
            (some (EntryList.cons "a" (Value.int 1)
              (EntryList.cons "b" (Value.int 2) .nil))),
          Value.str "cached")] = none := by
      simp only [lookupKey]
      rw [if_neg (by decide)]
    have h1 := requestMissFirst net 3 "/convai/conversations" _ _ v
      (by omega) hmiss hok
    rw [h1]

/-- Witness for the amended claim C5 at a concrete input. -/
theorem cache_key_serialization_determinism_witness :
    (pyJsonDumps (Value.dict (EntryList.cons "a" (Value.int 1) .nil))
        = pyJsonDumps (Value.dict (EntryList.cons "a" (Value.int 1) .nil)))
    ∧ (AgentsClient.cacheKey "GET" "/p"
          (some (EntryList.cons "a" (Value.int 1) .nil))
        = AgentsClient.cacheKey "GET" "/p"
          (some (EntryList.cons "a" (Value.int 1) .nil)))
    ∧ ((fun _ => Outcome.ok (Value.str "fresh") : Nat → Outcome Value) 0
        = Outcome.ok (Value.str "fresh"))
    ∧ (AgentsClient.request (fun _ => Outcome.ok (Value.str "fresh")) 3 "GET"
          "/convai/conversations"
          (some (EntryList.cons "b" (Value.int 2)
            (EntryList.cons "a" (Value.int 1) .nil))) true
          [(AgentsClient.cacheKey "GET" "/convai/conversations"
              (some (EntryList.cons "a" (Value.int 1)
                (EntryList.cons "b" (Value.int 2) .nil))),
            Value.str "cached")]).networkCalls = 1 :=
  ⟨rfl,
    cache_key_serialization_determinism.1 "GET" "/p" _ _ rfl,
    rfl,
    cache_key_serialization_determinism.2
      (fun _ => Outcome.ok (Value.str "fresh")) (Value.str "fresh") rfl⟩

/-! ## Claims C7, C8 and C10 about the envelope builders -/

/-- Claim C7: every envelope built by the builders satisfies the shape
invariant — `format_success` output has `success = true` and carries no
`error` and no `suggestion` key, and `format_error` output has
`success = false` and carries no `data` key, for all message, data, error,
details and suggestion arguments, in both the agents shared and the
conversations/integrations versions. -/
theorem envelope_shape_invariant :
    (∀ (m : String) (d : Option Value),
        lookupKey "success" (AgentsShared.format_success m d)
            = some (Value.bool true)
          ∧ lookupKey "error" (AgentsShared.format_success m d) = none
          ∧ lookupKey "suggestion" (AgentsShared.format_success m d) = none)
    ∧ (∀ (e : String) (det : Option Value) (sug : Option String),
        lookupKey "success" (AgentsShared.format_error e det sug)
            = some (Value.bool false)
          ∧ lookupKey "data" (AgentsShared.format_error e det sug) = none)
    ∧ (∀ (m : String) (d : Option Value),
        lookupKey "success" (ConvUtils.format_success m d)
            = some (Value.bool true)
          ∧ lookupKey "error" (ConvUtils.format_success m d) = none
          ∧ lookupKey "suggestion" (ConvUtils.format_success m d) = none)
    ∧ (∀ (e : String) (sug : Option String),
        lookupKey "success" (ConvUtils.format_error e sug)
            = some (Value.bool false)
          ∧ lookupKey "data" (ConvUtils.format_error e sug) = none) := by
  refine ⟨?_, ?_, ?_, ?_⟩
  · intro m d
    unfold AgentsShared.format_success
    split <;> simp [lookupKey]
  · intro e det sug
    unfold AgentsShared.format_error
    split <;> split <;> simp [lookupKey]
  · intro m d
    unfold ConvUtils.format_success
    cases d <;> simp [lookupKey]
  · intro e sug
    unfold ConvUtils.format_error
    split <;> simp [lookupKey]

/-- Claim C8: `format_success("ok", \x7b"x": 1\x7d)` returns exactly
`\x7b"success": true, "message": "ok", "data": \x7b"x": 1\x7d\x7d` and
`format_error("bad", suggestion="fix it")` returns exactly
`\x7b"success": false, "error": "bad", "suggestion": "fix it"\x7d` — in the
agents shared and conversations/integrations versions alike — and this
shape is stable for arbitrary message/data combinations (truthy data, and a
non-empty suggestion with no details). -/
theorem envelope_concrete_shapes :
    AgentsShared.format_success "ok"
        (some (Value.dict (EntryList.cons "x" (Value.int 1) .nil)))
        = [("success", Value.bool true), ("message", Value.str "ok"),
           ("data", Value.dict (EntryList.cons "x" (Value.int 1) .nil))]
    ∧ AgentsShared.format_error "bad" none (some "fix it")
        = [("success", Value.bool false), ("error", Value.str "bad"),
           ("suggestion", Value.str "fix it")]
    ∧ ConvUtils.format_success "ok"
        (some (Value.dict (EntryList.cons "x" (Value.int 1) .nil)))
        = [("success", Value.bool true), ("message", Value.str "ok"),
           ("data", Value.dict (EntryList.cons "x" (Value.int 1) .nil))]
    ∧ ConvUtils.format_error "bad" (some "fix it")
        = [("success", Value.bool false), ("error", Value.str "bad"),
           ("suggestion", Value.str "fix it")]
    ∧ (∀ (m : String) (d : Value), truthy d = true →
        AgentsShared.format_success m (some d)
          = [("success", Value.bool true), ("message", Value.str m),
             ("data", d)])
    ∧ (∀ (e s : String), s ≠ "" →
        AgentsShared.format_error e none (some s)
          = [("success", Value.bool false), ("error", Value.str e),
             ("suggestion", Value.str s)]) := by
  refine ⟨rfl, rfl, rfl, rfl, ?_, ?_⟩
  · intro m d h
    simp [AgentsShared.format_success, h]
  · intro e s h
    simp [AgentsShared.format_error, beq_eq_false_iff_ne.mpr h]

/-- Witness for claim C8 at a concrete input: the stability statements
applied to a truthy data dict and a non-empty suggestion. -/
theorem envelope_concrete_shapes_witness :
    truthy (Value.dict (EntryList.cons "k" (Value.str "v") .nil)) = true
    ∧ ("hint" : String) ≠ ""
    ∧ AgentsShared.format_success "made"
        (some (Value.dict (EntryList.cons "k" (Value.str "v") .nil)))
        = [("success", Value.bool true), ("message", Value.str "made"),
           ("data", Value.dict (EntryList.cons "k" (Value.str "v") .nil))]
    ∧ AgentsShared.format_error "broke" none (some "hint")
        = [("success", Value.bool false), ("error", Value.str "broke"),
           ("suggestion", Value.str "hint")] :=
  ⟨rfl, by decide,
    envelope_concrete_shapes.2.2.2.2.1 "made" _ rfl,
    envelope_concrete_shapes.2.2.2.2.2 "broke" "hint" (by decide)⟩

/-- Claim C10: in the agents shared and voices `format_success`, the `data`
key is present in the result if and only if the `data` argument is truthy;
in particular an empty dict (or any falsy value) yields exactly
`\x7b"success": true, "message": message\x7d` with no `data` key at all. -/
theorem format_success_data_iff_truthy :
    (∀ (m : String) (d : Option Value),
        (lookupKey "data" (AgentsShared.format_success m d)).isSome
            = (match d with | none => false | some v => truthy v)
          ∧ (lookupKey "data" (Voices.format_success m d)).isSome
            = (match d with | none => false | some v => truthy v))
    ∧ (∀ m : String,
        AgentsShared.format_success m (some (Value.dict .nil))
            = [("success", Value.bool true), ("message", Value.str m)]
          ∧ Voices.format_success m (some (Value.dict .nil))
            = [("success", Value.bool true), ("message", Value.str m)]) := by
  constructor
  · intro m d
    constructor
    · unfold AgentsShared.format_success
      split
      · rename_i h; rw [h]; simp [lookupKey]
      · rename_i h; rw [Bool.not_eq_true] at h; rw [h]; simp [lookupKey]
    · unfold Voices.format_success
      split
      · rename_i h; rw [h]; simp [lookupKey]
      · rename_i h; rw [Bool.not_eq_true] at h; rw [h]; simp [lookupKey]
  · intro m
    exact ⟨rfl, rfl⟩

/-! ## Lemmas about the identifier validators, and claim C9 -/

theorem startsWithChars_self_append (p rest : List Char) :
    startsWithChars p (p ++ rest) = true := by
  induction p with
  | nil => rfl
  | cons c cs ih => simp [startsWithChars, ih]

theorem mem_of_startsWithChars {p l : List Char}
    (h : startsWithChars p l = true) : ∀ c ∈ p, c ∈ l := by
  induction p generalizing l with
  | nil => intro c hc; cases hc
  | cons a as ih =>
      cases l with
      | nil => simp [startsWithChars] at h
      | cons b bs =>
          simp only [startsWithChars, Bool.and_eq_true, beq_iff_eq] at h
          obtain ⟨hab, hrest⟩ := h
          intro c hc
          rcases List.mem_cons.mp hc with rfl | hc2
          · rw [hab]; exact List.mem_cons_self b bs
          · exact List.mem_cons_of_mem _ (ih hrest c hc2)

theorem listReplace_nil (pat repl : List Char) : listReplace pat repl [] = [] := by
  rw [listReplace.eq_def]

theorem listReplace_cons (pat repl : List Char) (c : Char) (rest : List Char) :
    listReplace pat repl (c :: rest)
      = if startsWithChars pat (c :: rest) && !pat.isEmpty then
          repl ++ listReplace pat repl (rest.drop (pat.length - 1))
        else c :: listReplace pat repl rest := by
  rw [listReplace.eq_def]

theorem listReplace_of_not_mem {c0 : Char} {pat : List Char}
    (repl : List Char) (hpat : c0 ∈ pat) :
    ∀ l : List Char, c0 ∉ l → listReplace pat repl l = l := by
  intro l
  induction l with
  | nil => intro _; exact listReplace_nil pat repl
  | cons c rest ih =>
      intro h
      rw [listReplace_cons]
      rw [if_neg ?hneg]
      · rw [ih (fun hm => h (List.mem_cons_of_mem c hm))]
      case hneg =>
        intro hcond
        rw [Bool.and_eq_true] at hcond
        exact h (mem_of_startsWithChars hcond.1 c0 hpat)

theorem dropWhile_eq_self {p : Char → Bool} :
    ∀ l : List Char, (∀ c ∈ l, p c = false) → l.dropWhile p = l := by
  intro l h
  cases l with
  | nil => rfl
  | cons c rest =>
      simp [List.dropWhile_cons, h c (List.mem_cons_self c rest)]

theorem pyStrip_eq_self {p : Char → Bool} {l : List Char}
    (h : ∀ c ∈ l, p c = false) : pyStrip p l = l := by
  unfold pyStrip
  rw [dropWhile_eq_self l h]
  rw [dropWhile_eq_self l.reverse (fun c hc => h c (List.mem_reverse.mp hc))]
  exact List.reverse_reverse l

theorem listReplace_single (c0 : Char) :
    ∀ l : List Char, listReplace [c0] [] l = l.filter (fun c => !(c == c0)) := by
  intro l
  induction l with
  | nil => rw [listReplace_nil]; rfl
  | cons c rest ih =>
      rw [listReplace_cons]
      by_cases h : c0 = c
      · subst h
        rw [if_pos (by simp [startsWithChars])]
        show listReplace [c0] [] rest = List.filter (fun x => !(x == c0)) (c0 :: rest)
        rw [ih, List.filter_cons_of_neg (by simp)]
      · have hsw : startsWithChars [c0] (c :: rest) = false := by
          simp [startsWithChars, beq_eq_false_iff_ne.mpr h]
        rw [if_neg (by rw [hsw]; simp)]
        rw [ih, List.filter_cons_of_pos
          (by rw [beq_eq_false_iff_ne.mpr (Ne.symm h)]; rfl)]

theorem not_mem_of_all_pred {p : Char → Bool} {l : List Char}
    (h : ∀ c ∈ l, p c = true) {x : Char} (hx : p x = false) : x ∉ l :=
  fun hm => by rw [h x hm] at hx; cases hx

theorem not_mem_append2 {x : Char} {l1 l2 : List Char}
    (h1 : x ∉ l1) (h2 : x ∉ l2) : x ∉ l1 ++ l2 :=
  fun hm => Or.elim (List.mem_append.mp hm) h1 h2

theorem forall_mem_append2 {p : Char → Bool} {l1 l2 : List Char}
    (h1 : ∀ c ∈ l1, p c = false) (h2 : ∀ c ∈ l2, p c = false) :
    ∀ c ∈ l1 ++ l2, p c = false :=
  fun c hc => Or.elim (List.mem_append.mp hc) (h1 c) (h2 c)

theorem hex_ne_of_not {c x : Char} (h : isHexDigitA c = true)
    (hx : isHexDigitA x = false) : ¬ c = x :=
  fun he => by subst he; rw [h] at hx; cases hx

theorem alnum_ne_of_not {c x : Char} (h : isAlnumA c = true)
    (hx : isAlnumA x = false) : ¬ c = x :=
  fun he => by subst he; rw [h] at hx; cases hx

theorem hex_not_ws {c : Char} (h : isHexDigitA c = true) : isPyWs c = false := by
  cases hw : isPyWs c
  · rfl
  · exfalso
    unfold isPyWs at hw
    simp only [Bool.or_eq_true, decide_eq_true_eq] at hw
    rcases hw with ((((h1 | h1) | h1) | h1) | h1) | h1 <;> subst h1 <;>
      exact absurd h (by decide)

theorem hex_not_brace {c : Char} (h : isHexDigitA c = true) :
    bracePred c = false := by
  cases hw : bracePred c
  · rfl
  · exfalso
    unfold bracePred at hw
    simp only [Bool.or_eq_true, decide_eq_true_eq] at hw
    rcases hw with h1 | h1 <;> subst h1 <;> exact absurd h (by decide)

theorem alnum_not_brace {c : Char} (h : isAlnumA c = true) :
    bracePred c = false := by
  cases hw : bracePred c
  · rfl
  · exfalso
    unfold bracePred at hw
    simp only [Bool.or_eq_true, decide_eq_true_eq] at hw
    rcases hw with h1 | h1 <;> subst h1 <;> exact absurd h (by decide)

theorem hexTail_of_hex :
    ∀ l : List Char, (∀ c ∈ l, isHexDigitA c = true) → hexTail l = true := by
  intro l
  induction l with
  | nil => intro _; rfl
  | cons c rest ih =>
      intro h
      have hc := h c (List.mem_cons_self c rest)
      have hne : ¬ c = '_' :=
        hex_ne_of_not hc (show isHexDigitA '_' = false by decide)
      have htail : hexTail rest = true :=
        ih (fun x hx => h x (List.mem_cons_of_mem c hx))
      cases rest with
      | nil => rw [hexTail.eq_2, if_neg hne, hc]; rfl
      | cons d r2 =>
          rw [hexTail.eq_3, if_neg hne, hc, Bool.true_and]
          exact htail

theorem hexLit_of_hex (l : List Char) (hne : l ≠ [])
    (h : ∀ c ∈ l, isHexDigitA c = true) : hexLit l = true := by
  match l with
  | [] => exact absurd rfl hne
  | [c] => rw [hexLit.eq_2]; exact h c (List.mem_cons_self c [])
  | c :: d :: rest =>
      have hd := h d (by simp)
      have hdx : ¬ d = 'x' :=
        hex_ne_of_not hd (show isHexDigitA 'x' = false by decide)
      have hdX : ¬ d = 'X' :=
        hex_ne_of_not hd (show isHexDigitA 'X' = false by decide)
      have hc := h c (by simp)
      have hcond : (decide (c = '0') && (decide (d = 'x') || decide (d = 'X')))
          = false := by
        rw [decide_eq_false hdx, decide_eq_false hdX]
        simp
      have hbody : hexBodyOk (c :: d :: rest) = true := by
        rw [show hexBodyOk (c :: d :: rest)
            = (isHexDigitA c && hexTail (d :: rest)) from rfl, hc, Bool.true_and]
        exact hexTail_of_hex (d :: rest) (fun x hx => h x (by simp [hx]))
      cases rest with
      | nil =>
          rw [hexLit.eq_3, if_neg (by rw [hcond]; simp)]
          exact hbody
      | cons e r2 =>
          rw [hexLit.eq_4, if_neg (by rw [hcond]; simp)]
          exact hbody

theorem pyIntHexOk_of_hex (l : List Char) (hne : l ≠ [])
    (h : ∀ c ∈ l, isHexDigitA c = true) : pyIntHexOk l = true := by
  rw [pyIntHexOk.eq_def]
  rw [pyStrip_eq_self (fun c hc => hex_not_ws (h c hc))]
  match l with
  | [] => exact absurd rfl hne
  | c :: rest =>
      have hc := h c (List.mem_cons_self c rest)
      have hplus : ¬ c = '+' :=
        hex_ne_of_not hc (show isHexDigitA '+' = false by decide)
      have hminus : ¬ c = '-' :=
        hex_ne_of_not hc (show isHexDigitA '-' = false by decide)
      simp only [if_neg hplus, if_neg hminus]
      exact hexLit_of_hex (c :: rest) (by simp) h

theorem validateUuid_plain {l : List Char}
    (hc : ':' ∉ l) (hb : ∀ c ∈ l, bracePred c = false) (hh : '-' ∉ l) :
    validateUuidChars l = ((l.length == 32) && pyIntHexOk l) := by
  simp only [validateUuidChars]
  rw [listReplace_of_not_mem [] (show ':' ∈ "urn:".toList by decide) l hc,
      listReplace_of_not_mem [] (show ':' ∈ "uuid:".toList by decide) l hc,
      pyStrip_eq_self hb,
      listReplace_of_not_mem [] (show '-' ∈ ['-'] by decide) l hh]

theorem validateAgentSuffix (s : String) (hall : s.toList.all isAlnumA = true)
    (hlen : s.toList.length = 27 ∨ s.toList.length = 28 ∨ s.toList.length = 29) :
    AgentsShared.validate_elevenlabs_id (some ("agent_" ++ s)) (some "agent")
      = (s.toList.length == 28) := by
  have hl : ("agent_" ++ s).toList = "agent_".toList ++ s.toList := rfl
  have hmem := List.all_eq_true.mp hall
  have hsne : s.toList ≠ [] := by
    intro h0
    rw [h0] at hlen
    simp at hlen
  have hcolon : ':' ∉ ("agent_" ++ s).toList := by
    rw [hl]
    exact not_mem_append2 (by decide)
      (not_mem_of_all_pred hmem (show isAlnumA ':' = false by decide))
  have hbrace : ∀ c ∈ ("agent_" ++ s).toList, bracePred c = false := by
    rw [hl]
    exact forall_mem_append2
      (by decide)
      (fun c hcm => alnum_not_brace (hmem c hcm))
  have hhyph : '-' ∉ ("agent_" ++ s).toList := by
    rw [hl]
    exact not_mem_append2 (by decide)
      (not_mem_of_all_pred hmem (show isAlnumA '-' = false by decide))
  have huuid : validateUuidChars (("agent_" ++ s).toList) = false := by
    rw [validateUuid_plain hcolon hbrace hhyph, hl, List.length_append]
    rcases hlen with h | h | h <;> rw [h] <;> rfl
  have hempty : (("agent_" ++ s).toList).isEmpty = false := by
    rw [hl]
    rfl
  have hlast : (("agent_" ++ s).toList).getLast? ≠ some '\n' := by
    rw [hl, List.getLast?_append]
    cases hgl : s.toList.getLast? with
    | none => exact absurd (List.getLast?_eq_none_iff.mp hgl) hsne
    | some c =>
        have hcm : c ∈ s.toList := List.mem_of_mem_getLast? hgl
        have hca := hmem c hcm
        rw [show (some c).or ("agent_".toList.getLast?) = some c from rfl]
        intro heq
        exact alnum_ne_of_not hca (show isAlnumA '\x0a' = false by decide)
          (Option.some.inj heq)
  simp only [AgentsShared.validate_elevenlabs_id]
  rw [hempty, huuid]
  simp only [Bool.false_eq_true, if_false]
  have hpat : (if ("agent" : String) == "" then none
      else AgentsShared.lookupPat "agent" AgentsShared.agentsPatternList)
      = some (AgentsShared.prefixedAlnum "agent_".toList 28) := rfl
  rw [hpat]
  show AgentsShared.reMatchDollar (AgentsShared.prefixedAlnum "agent_".toList 28)
      (("agent_" ++ s).toList) = (s.toList.length == 28)
  unfold AgentsShared.reMatchDollar
  have hsecond : ((("agent_" ++ s).toList.getLast? == some '\n')
      && AgentsShared.prefixedAlnum "agent_".toList 28
        (("agent_" ++ s).toList.dropLast) : Bool) = false := by
    rw [beq_eq_false_iff_ne.mpr hlast]
    rfl
  rw [hsecond, Bool.or_false]
  unfold AgentsShared.prefixedAlnum
  rw [hl]
  rw [show ("agent_".toList : List Char).length = 6 from rfl]
  rw [show ("agent_".toList ++ s.toList).drop 6
      = ("agent_".toList ++ s.toList).drop ("agent_".toList).length from rfl]
  rw [List.drop_left, startsWithChars_self_append]
  unfold AgentsShared.alnumExact
  rw [hall]
  simp

theorem validateUuidWellFormed (a b c d e : List Char)
    (ha : a.length = 8) (hb : b.length = 4) (hc : c.length = 4)
    (hd : d.length = 4) (he : e.length = 12)
    (ha2 : ∀ x ∈ a, isHexDigitA x = true) (hb2 : ∀ x ∈ b, isHexDigitA x = true)
    (hc2 : ∀ x ∈ c, isHexDigitA x = true) (hd2 : ∀ x ∈ d, isHexDigitA x = true)
    (he2 : ∀ x ∈ e, isHexDigitA x = true) :
    validateUuidChars
      (a ++ '-' :: (b ++ '-' :: (c ++ '-' :: (d ++ '-' :: e)))) = true := by
  set L : List Char := a ++ '-' :: (b ++ '-' :: (c ++ '-' :: (d ++ '-' :: e)))
    with hL
  have hmem : ∀ x ∈ L, isHexDigitA x = true ∨ x = '-' := by
    intro x hx
    rw [hL] at hx
    simp only [List.mem_append, List.mem_cons] at hx
    rcases hx with h | h | h | h | h | h | h | h | h
    · exact Or.inl (ha2 x h)
    · exact Or.inr h
    · exact Or.inl (hb2 x h)
    · exact Or.inr h
    · exact Or.inl (hc2 x h)
    · exact Or.inr h
    · exact Or.inl (hd2 x h)
    · exact Or.inr h
    · exact Or.inl (he2 x h)
  have hcolon : ':' ∉ L := by
    intro hm
    rcases hmem ':' hm with h | h
    · exact absurd h (by decide)
    · exact absurd h (by decide)
  have hbrace : ∀ x ∈ L, bracePred x = false := by
    intro x hx
    rcases hmem x hx with h | h
    · exact hex_not_brace h
    · rw [h]; decide
  simp only [validateUuidChars]
  rw [listReplace_of_not_mem [] (show ':' ∈ "urn:".toList by decide) L hcolon,
      listReplace_of_not_mem [] (show ':' ∈ "uuid:".toList by decide) L hcolon,
      pyStrip_eq_self hbrace,
      listReplace_single '-' L]
  have hfa : ∀ (z : List Char), (∀ x ∈ z, isHexDigitA x = true) →
      z.filter (fun x => !(x == '-')) = z := by
    intro z hz
    apply List.filter_eq_self.mpr
    intro x hx
    rw [beq_eq_false_iff_ne.mpr
      (hex_ne_of_not (hz x hx) (show isHexDigitA '-' = false by decide))]
    rfl
  have hfilter : L.filter (fun x => !(x == '-'))
      = a ++ (b ++ (c ++ (d ++ e))) := by
    rw [hL]
    rw [List.filter_append, hfa a ha2]
    rw [List.filter_cons_of_neg (by decide)]
    rw [List.filter_append, hfa b hb2]
    rw [List.filter_cons_of_neg (by decide)]
    rw [List.filter_append, hfa c hc2]
    rw [List.filter_cons_of_neg (by decide)]
    rw [List.filter_append, hfa d hd2]
    rw [List.filter_cons_of_neg (by decide)]
    rw [hfa e he2]
  rw [hfilter]
  have hlen : (a ++ (b ++ (c ++ (d ++ e)))).length = 32 := by
    simp [List.length_append, ha, hb, hc, hd, he]
  rw [hlen]
  have hallhex : ∀ x ∈ a ++ (b ++ (c ++ (d ++ e))), isHexDigitA x = true := by
    intro x hx
    simp only [List.mem_append] at hx
    rcases hx with h | h | h | h | h
    · exact ha2 x h
    · exact hb2 x h
    · exact hc2 x h
    · exact hd2 x h
    · exact he2 x h
  rw [pyIntHexOk_of_hex _ (by intro h0; rw [h0] at hlen; simp at hlen) hallhex]
  rfl

/-- Claim C9, counterexample: the conversations-package validator
(`validate_elevenlabs_id` in elevenlabs-conversations/src/utils.py) uses the
open-ended pattern `^agent_[a-zA-Z0-9]+$` with no length bound, so an agent
id whose suffix has only 27 alphanumeric characters — which the claim says
must fail validation — validates as true there. -/
theorem conv_validator_accepts_27_char_suffix :
    ConvUtils.validate_elevenlabs_id "agent_abcdefghijklmnopqrstuvwxyz0"
      "agent" = true := by
  decide

/-- Claim C9, amended: for the agents shared validator
(`validate_elevenlabs_id` in elevenlabs-agents/src/shared/utils.py, the one
exercised by the repository test file): `agent_` followed by exactly 28
alphanumeric characters validates as an agent id; the same shape with 27 or
29 characters after the prefix fails; any well-formed hyphenated UUID
validates regardless of the declared id type; and an empty string or a
`None` value always fails.  The conversations-package variant instead uses
open-ended `agent_[a-zA-Z0-9]+` patterns (see the counterexample) and has no
UUID acceptance.  The validator is a pure predicate. -/
theorem validator_agents_shared_behaviour :
    (∀ s : String, s.toList.length = 28 → s.toList.all isAlnumA = true →
        AgentsShared.validate_elevenlabs_id (some ("agent_" ++ s))
          (some "agent") = true)
    ∧ (∀ s : String, s.toList.length = 27 ∨ s.toList.length = 29 →
        s.toList.all isAlnumA = true →
        AgentsShared.validate_elevenlabs_id (some ("agent_" ++ s))
          (some "agent") = false)
    ∧ (∀ (a b c d e : List Char) (t : Option String),
        a.length = 8 → b.length = 4 → c.length = 4 → d.length = 4 →
        e.length = 12 →
        (∀ x ∈ a, isHexDigitA x = true) → (∀ x ∈ b, isHexDigitA x = true) →
        (∀ x ∈ c, isHexDigitA x = true) → (∀ x ∈ d, isHexDigitA x = true) →
        (∀ x ∈ e, isHexDigitA x = true) →
        AgentsShared.validate_elevenlabs_id
          (some (String.mk
            (a ++ '-' :: (b ++ '-' :: (c ++ '-' :: (d ++ '-' :: e)))))) t
          = true)
    ∧ (∀ t : Option String,
        AgentsShared.validate_elevenlabs_id (some "") t = false
          ∧ AgentsShared.validate_elevenlabs_id none t = false) := by
  refine ⟨?_, ?_, ?_, ?_⟩
  · intro s h28 hall
    rw [validateAgentSuffix s hall (Or.inr (Or.inl h28)), h28]
    rfl
  · intro s hor hall
    rcases hor with h | h
    · rw [validateAgentSuffix s hall (Or.inl h), h]; rfl
    · rw [validateAgentSuffix s hall (Or.inr (Or.inr h)), h]; rfl
  · intro a b c d e t ha hb hc hd he ha2 hb2 hc2 hd2 he2
    have huuid := validateUuidWellFormed a b c d e ha hb hc hd he
      ha2 hb2 hc2 hd2 he2
    have hne : (a ++ '-' :: (b ++ '-' :: (c ++ '-' :: (d ++ '-' :: e))))
        ≠ [] := by
      intro h0
      have h1 := congrArg List.length h0
      simp [List.length_append, ha] at h1
    simp only [AgentsShared.validate_elevenlabs_id]
    have htl : (String.mk
        (a ++ '-' :: (b ++ '-' :: (c ++ '-' :: (d ++ '-' :: e))))).toList
        = a ++ '-' :: (b ++ '-' :: (c ++ '-' :: (d ++ '-' :: e))) := rfl
    rw [htl, huuid]
    cases hL2 : a ++ '-' :: (b ++ '-' :: (c ++ '-' :: (d ++ '-' :: e))) with
    | nil => exact absurd hL2 hne
    | cons x xs => simp
  · intro t
    exact ⟨rfl, rfl⟩

/-- Witness for the amended claim C9 at concrete inputs: a 28-character
suffix, a 27-character suffix, and the UUID
`550e8400-e29b-41d4-a716-446655440000`. -/
theorem validator_agents_shared_behaviour_witness :
    ("abcdefghijklmnopqrstuvwxyzAB".toList.length = 28
      ∧ "abcdefghijklmnopqrstuvwxyzAB".toList.all isAlnumA = true
      ∧ AgentsShared.validate_elevenlabs_id
          (some ("agent_" ++ "abcdefghijklmnopqrstuvwxyzAB")) (some "agent")
          = true)
    ∧ (("abcdefghijklmnopqrstuvwxyz0".toList.length = 27
          ∨ "abcdefghijklmnopqrstuvwxyz0".toList.length = 29)
      ∧ "abcdefghijklmnopqrstuvwxyz0".toList.all isAlnumA = true
      ∧ AgentsShared.validate_elevenlabs_id
          (some ("agent_" ++ "abcdefghijklmnopqrstuvwxyz0")) (some "agent")
          = false)
    ∧ ("550e8400".toList.length = 8
      ∧ (∀ x ∈ "550e8400".toList, isHexDigitA x = true)
      ∧ AgentsShared.validate_elevenlabs_id
          (some (String.mk ("550e8400".toList ++ '-' :: ("e29b".toList ++ '-'
            :: ("41d4".toList ++ '-' :: ("a716".toList ++ '-'
            :: "446655440000".toList)))))) none = true) :=
  ⟨⟨by decide, by decide,
      validator_agents_shared_behaviour.1 "abcdefghijklmnopqrstuvwxyzAB"
        (by decide) (by decide)⟩,
    ⟨Or.inl (by decide), by decide,
      validator_agents_shared_behaviour.2.1 "abcdefghijklmnopqrstuvwxyz0"
        (Or.inl (by decide)) (by decide)⟩,
    ⟨by decide, by decide,
      validator_agents_shared_behaviour.2.2.1 "550e8400".toList "e29b".toList
        "41d4".toList "a716".toList "446655440000".toList none (by decide)
        (by decide) (by decide) (by decide) (by decide) (by decide)
        (by decide) (by decide) (by decide) (by decide)⟩⟩

end ElevenMCP
